import Mathlib

/-
Verification of the PyFTS5 full-text-search wrapper (src/fts.py) against its
natural-language specification.

The Python class FullTextSearchDB wraps an in-memory SQLite FTS5 virtual
table. The shallow embedding below models:
  * the store state: the list of (rowid, content) pairs visible on the
    single connection, a closed flag, and an instrumentation counter for
    close() invocations;
  * the sqlite3 connection semantics the code relies on: any execute on a
    closed connection fails, executemany binds row by row and stops at the
    first arity mismatch leaving the earlier inserts visible (the implicit
    transaction is never rolled back and all reads run on the same
    connection), and an FTS5 insert with an explicit rowid that is already
    in use fails with an integrity error and stores nothing (the virtual
    table's shadow content table keys its rows by the rowid);
  * the external index engine, modelled from the spec: the query grammar of
    section 6 (phrase quoting, suffix wildcard for prefix match, AND/OR/NOT
    infix operators, NEAR(term1 term2 ..., distance)), with term matching,
    proximity windows and highlight rendering over whitespace/punctuation
    tokenized, case-folded content.
Every operation returns its result together with the post-state, because a
failing bulk insert mutates the store.
-/

namespace PyFTS5

/-- Build a string from a reversed character accumulator. -/
def mkStr (acc : List Char) : String := String.mk acc.reverse

/-- Characters that form a bareword token in the engine's query grammar and
a content token for matching (alphanumeric or underscore). -/
def isWordChar (c : Char) : Bool := c.isAlphanum || c == '_'

/-- Case-fold a string, modelling the engine's case-insensitive matching. -/
def lcStr (s : String) : String := String.mk (s.data.map Char.toLower)

/-- Split characters into maximal word-character runs, case-folded; `acc` is
the current run, reversed. Models the engine's content tokenizer. -/
def wordsAux : List Char → List Char → List String
| [], [] => []
| [], acc => [mkStr acc]
| c :: cs, acc =>
  if isWordChar c then wordsAux cs (c.toLower :: acc)
  else
    match acc with
    | [] => wordsAux cs []
    | _ :: _ => mkStr acc :: wordsAux cs []

/-- Tokenize document content (or quoted phrase text) into match tokens. -/
def words (s : String) : List String := wordsAux s.data []

/-- Lexical tokens of the engine's query grammar. `bad` marks a character
the grammar does not accept or an unterminated quoted string. -/
inductive Tok where
| word (s : String)
| str (s : String)
| lpar
| rpar
| comma
| star
| bad
deriving DecidableEq, Repr

/-- Lexer state: outside any token, inside a bareword, inside a quoted
string, or just after a quote inside a quoted string (which either escapes
a literal quote when doubled or closes the string). -/
inductive TokMode where
| normal
| inWord (acc : List Char)
| inStr (acc : List Char)
| strQ (acc : List Char)
deriving DecidableEq, Repr

/-- One lexer step from the outside-a-token state. -/
def normStep (c : Char) : List Tok × TokMode :=
  if isWordChar c then ([], .inWord [c])
  else if c == '"' then ([], .inStr [])
  else if c == ' ' then ([], .normal)
  else if c == '(' then ([Tok.lpar], .normal)
  else if c == ')' then ([Tok.rpar], .normal)
  else if c == ',' then ([Tok.comma], .normal)
  else if c == '*' then ([Tok.star], .normal)
  else ([Tok.bad], .normal)

/-- One lexer step: the tokens emitted by consuming `c` and the next state. -/
def step0 : TokMode → Char → List Tok × TokMode
| .normal, c => normStep c
| .inWord acc, c =>
  if isWordChar c then ([], .inWord (c :: acc))
  else
    let (ts, m) := normStep c
    (Tok.word (mkStr acc) :: ts, m)
| .inStr acc, c =>
  if c == '"' then ([], .strQ acc) else ([], .inStr (c :: acc))
| .strQ acc, c =>
  if c == '"' then ([], .inStr ('"' :: acc))
  else
    let (ts, m) := normStep c
    (Tok.str (mkStr acc) :: ts, m)

/-- Run the lexer over a character list from a given state. -/
def runT : TokMode → List Char → List Tok × TokMode
| m, [] => ([], m)
| m, c :: cs =>
  let (ts, m') := step0 m c
  let (rest, mf) := runT m' cs
  (ts ++ rest, mf)

/-- Flush the lexer's final state: a pending word or a closed string is
emitted, an unterminated string is a `bad` token. -/
def finishT : TokMode → List Tok
| .normal => []
| .inWord acc => [Tok.word (mkStr acc)]
| .inStr _ => [Tok.bad]
| .strQ acc => [Tok.str (mkStr acc)]

/-- Tokenize a canonical query string. -/
def tokenize (s : String) : List Tok :=
  let (ts, m) := runT .normal s.data
  ts ++ finishT m

/-- Parsed queries: a phrase (one or more content tokens, optionally a
prefix match on the last token), the three infix operators, and a proximity
group of phrases with a distance bound. -/
inductive Ast where
| phr (ws : List String) (pre : Bool)
| andq (a b : Ast)
| orq (a b : Ast)
| notq (a b : Ast)
| nearq (ps : List (List String)) (d : Nat)
deriving DecidableEq, Repr

/-- The grammar's reserved operator words (upper case only, as the engine
treats lower-case variants as plain terms). -/
def isReserved (w : String) : Bool :=
  w == "AND" || w == "OR" || w == "NOT" || w == "NEAR"

/-- Collect the phrase list inside a NEAR group, stopping at the first
token that cannot start a phrase. -/
def parseNearPhrases : List Tok → List (List String) × List Tok
| Tok.word w :: r =>
  if isReserved w then ([], Tok.word w :: r)
  else
    let (ps, r') := parseNearPhrases r
    ([lcStr w] :: ps, r')
| Tok.str s :: r =>
  let (ps, r') := parseNearPhrases r
  (words s :: ps, r')
| toks => ([], toks)

/-- Decimal value of a digit list (most significant first). -/
def natOfAux : Nat → List Char → Nat
| acc, [] => acc
| acc, c :: cs => natOfAux (acc * 10 + (c.toNat - '0'.toNat)) cs

/-- A non-empty all-digit word, usable as a NEAR distance. -/
def isDigits (s : String) : Bool := !s.data.isEmpty && s.data.all Char.isDigit

/-- Parse the inside of NEAR( ... ): one or more phrases, then either a
comma and a distance before the closing parenthesis, or the closing
parenthesis alone (distance defaults to 10). -/
def parseNearBody (toks : List Tok) : Except Unit (Ast × List Tok) :=
  let (ps, r) := parseNearPhrases toks
  if ps.isEmpty then .error ()
  else
    match r with
    | Tok.comma :: Tok.word d :: Tok.rpar :: r2 =>
      if isDigits d then .ok (.nearq ps (natOfAux 0 d.data), r2) else .error ()
    | Tok.rpar :: r2 => .ok (.nearq ps 10, r2)
    | _ => .error ()

/-- Parse one primary: a bareword or quoted phrase with an optional prefix
star, or a NEAR group. Reserved words are not terms. -/
def parsePrim : List Tok → Except Unit (Ast × List Tok)
| Tok.word w :: rest =>
  if w == "NEAR" then
    match rest with
    | Tok.lpar :: r2 => parseNearBody r2
    | _ => .error ()
  else if isReserved w then .error ()
  else
    match rest with
    | Tok.star :: r2 => .ok (.phr [lcStr w] true, r2)
    | _ => .ok (.phr [lcStr w] false, rest)
| Tok.str s :: rest =>
  match rest with
  | Tok.star :: r2 => .ok (.phr (words s) true, r2)
  | _ => .ok (.phr (words s) false, rest)
| _ => .error ()

/-- Parse the rest of a query after a first primary: infix AND/OR/NOT, and
adjacency as implicit AND. The fuel only bounds the loop; each iteration
consumes at least one token, so `length + 1` fuel always suffices. -/
def parseRest : Nat → Ast → List Tok → Except Unit Ast
| _, a, [] => .ok a
| 0, _, _ :: _ => .error ()
| fuel + 1, a, t :: r =>
  match t with
  | Tok.word w =>
    if w == "AND" then
      match parsePrim r with
      | .ok (b, r') => parseRest fuel (.andq a b) r'
      | .error _ => .error ()
    else if w == "OR" then
      match parsePrim r with
      | .ok (b, r') => parseRest fuel (.orq a b) r'
      | .error _ => .error ()
    else if w == "NOT" then
      match parsePrim r with
      | .ok (b, r') => parseRest fuel (.notq a b) r'
      | .error _ => .error ()
    else
      match parsePrim (Tok.word w :: r) with
      | .ok (b, r') => parseRest fuel (.andq a b) r'
      | .error _ => .error ()
  | _ =>
    match parsePrim (t :: r) with
    | .ok (b, r') => parseRest fuel (.andq a b) r'
    | .error _ => .error ()

/-- Parse a whole token list as one query. -/
def parseToks (toks : List Tok) : Except Unit Ast :=
  match parsePrim toks with
  | .error _ => .error ()
  | .ok (a, r) => parseRest (r.length + 1) a r

/-- Modelled from the spec: the external index engine's query parser over
the section 6 grammar. The empty token list has no primary and is rejected. -/
def engineParse (q : String) : Except Unit Ast := parseToks (tokenize q)

/-- Does the phrase match at the head of the token list? The prefix flag
loosens the last phrase token to a prefix comparison. -/
def matchHere : List String → Bool → List String → Bool
| [], _, _ => true
| [w], pre, t :: _ => if pre then w.isPrefixOf t else w == t
| _ :: _, _, [] => false
| w :: ws, pre, t :: ts => w == t && matchHere ws pre ts

/-- Does the phrase occur anywhere in the token list? -/
def phraseHit (ws : List String) (pre : Bool) (toks : List String) : Bool :=
  (List.range (toks.length + 1)).any (fun i => matchHere ws pre (toks.drop i))

/-- Start and end positions of every occurrence of a phrase. -/
def occList (ws : List String) (toks : List String) : List (Nat × Nat) :=
  (List.range (toks.length + 1)).filterMap
    (fun i => if matchHere ws false (toks.drop i) then some (i, i + ws.length) else none)

/-- All ways to pick one occurrence per phrase. -/
def allChoices : List (List (Nat × Nat)) → List (List (Nat × Nat))
| [] => [[]]
| l :: ls => (l.map (fun x => (allChoices ls).map (fun ch => x :: ch))).flatten

/-- Does a choice of occurrences fit a proximity window: the span from the
earliest start to the latest end leaves at most `d` separating tokens
beyond the phrases' own lengths? -/
def spanOk (d : Nat) : List (Nat × Nat) → Bool
| [] => false
| c :: cs =>
  let lo := cs.foldl (fun a p => min a p.1) c.1
  let hi := cs.foldl (fun a p => max a p.2) c.2
  let tot := (c :: cs).foldl (fun a p => a + (p.2 - p.1)) 0
  decide (hi - lo ≤ d + tot)

/-- Modelled from the spec: the proximity (NEAR) match condition, a set of
phrases all occurring within a bounded token-distance window, order
independent. -/
def evalNear (ps : List (List String)) (d : Nat) (toks : List String) : Bool :=
  (allChoices (ps.map (fun p => occList p toks))).any (spanOk d)

/-- Modelled from the spec: the engine's matching semantics for a parsed
query against one document's content tokens. -/
def evalAst (toks : List String) : Ast → Bool
| .phr ws pre => phraseHit ws pre toks
| .andq a b => evalAst toks a && evalAst toks b
| .orq a b => evalAst toks a || evalAst toks b
| .notq a b => evalAst toks a && !evalAst toks b
| .nearq ps d => evalNear ps d toks

/-- All content tokens named by a query, used by highlight rendering. -/
def queryWords : Ast → List String
| .phr ws _ => ws
| .andq a b => queryWords a ++ queryWords b
| .orq a b => queryWords a ++ queryWords b
| .notq a b => queryWords a ++ queryWords b
| .nearq ps _ => ps.flatten

/-- Split content into alternating word and separator segments, preserving
every character, for highlight rendering. -/
def segsAux : List Char → Option (Bool × List Char) → List (Bool × String)
| [], none => []
| [], some (w, acc) => [(w, mkStr acc)]
| c :: cs, none => segsAux cs (some (isWordChar c, [c]))
| c :: cs, some (w, acc) =>
  if isWordChar c == w then segsAux cs (some (w, c :: acc))
  else (w, mkStr acc) :: segsAux cs (some (isWordChar c, [c]))

/-- Modelled from the spec: the engine's highlight rendering, a copy of the
content with each matched-term occurrence wrapped verbatim in the caller's
marker strings (no escaping of the markers). -/
def hl_render (pre suf : String) (qws : List String) (content : String) : String :=
  String.join ((segsAux content.data none).map
    (fun seg => if seg.1 && qws.contains (lcStr seg.2) then pre ++ seg.2 ++ suf else seg.2))

/-- Errors surfaced by the store, mirroring the exceptions the Python code
lets propagate: sqlite3.ProgrammingError on a closed connection, a
parameter-binding arity mismatch in executemany, the constraint failure
(sqlite3.IntegrityError) raised by an insert under a rowid already in use,
and the engine's rejection of a malformed canonical query
(sqlite3.OperationalError, carrying the offending query). -/
inductive DBError where
| storeClosed
| bindingMismatch
| integrityError
| queryGrammarRejected (q : String)
deriving DecidableEq, Repr

/-- A result row: `(rowid, content)` without highlighting, or
`(rowid, highlighted, content)` with it. -/
inductive Row where
| plain (id : Int) (content : String)
| highlighted (id : Int) (hl : String) (content : String)
deriving DecidableEq, Repr

/-- The keyword options every search method passes through:
`highlight=False, hl_prefix="<b>", hl_suffix="</b>"`. -/
structure SearchOpts where
  highlight : Bool := false
  hl_prefix : String := "<b>"
  hl_suffix : String := "</b>"
deriving DecidableEq, Repr

/-- The store: the rows of the FTS5 table "documents" as visible on the
single connection (insertion order, rowid and content), whether the
connection has been closed, and an instrumentation counter of close()
invocations used by the scoped-acquisition claim. -/
structure FullTextSearchDB where
  rows : List (Int × String)
  closed : Bool
  closeCount : Nat
deriving DecidableEq, Repr

/-- SQLite's automatic rowid assignment: one more than the largest rowid in
use (even when that largest is negative), 1 for an empty table. -/
def autoId (rows : List (Int × String)) : Int :=
  match rows with
  | [] => 1
  | r :: rs => (rs.foldl (fun m p => max m p.1) r.1) + 1

/-- add_document: one INSERT, with the caller's rowid when given. An FTS5
insert with an explicit rowid that is already present violates the shadow
content table's primary key: it raises the constraint failure and stores
nothing. On a closed connection execute fails. -/
def add_document (content : String) (doc_id : Option Int)
    (db : FullTextSearchDB) : Except DBError Unit × FullTextSearchDB :=
  if db.closed then (.error .storeClosed, db)
  else
    match doc_id with
    | some i =>
      if db.rows.any (fun p => p.1 == i) then (.error .integrityError, db)
      else (.ok (), { db with rows := db.rows ++ [(i, content)] })
    | none => (.ok (), { db with rows := db.rows ++ [(autoId db.rows, content)] })

/-- The parameter tuples add_documents builds: `(doc_id, content)` when the
id is present, `(content,)` when it is None. -/
inductive Param where
| two (i : Int) (c : String)
| one (c : String)
deriving DecidableEq, Repr

/-- Build one parameter tuple from one `(doc_id, content)` pair. -/
def toParam : Option Int × String → Param
| (some i, c) => .two i c
| (none, c) => .one c

/-- executemany against the two-placeholder INSERT: rows are bound and
stepped one at a time; a rowid already in the store (or inserted earlier in
the batch) raises the constraint failure, and a one-element tuple is an
arity mismatch that raises; either way the loop stops with the rows already
inserted left visible on the connection. -/
def run2 : List Param → List (Int × String) → Except DBError Unit × List (Int × String)
| [], rows => (.ok (), rows)
| Param.two i c :: ps, rows =>
  if rows.any (fun p => p.1 == i) then (.error .integrityError, rows)
  else run2 ps (rows ++ [(i, c)])
| Param.one _ :: _, rows => (.error .bindingMismatch, rows)

/-- executemany against the one-placeholder INSERT: a two-element tuple is
an arity mismatch that raises and stops, as in `run2`. -/
def run1 : List Param → List (Int × String) → Except DBError Unit × List (Int × String)
| [], rows => (.ok (), rows)
| Param.one c :: ps, rows => run1 ps (rows ++ [(autoId rows, c)])
| Param.two _ _ :: _, rows => (.error .bindingMismatch, rows)

/-- add_documents: builds the parameter list, then assumes all tuples have
the arity of the first ("Assume all docs are of the same type") and runs
one executemany. The commit after it never rolls anything back, and every
read runs on the same connection, so a partial failure leaves the earlier
inserts visible. -/
def add_documents (docs : List (Option Int × String))
    (db : FullTextSearchDB) : Except DBError Unit × FullTextSearchDB :=
  if db.closed then (.error .storeClosed, db)
  else
    let params := docs.map toParam
    match params with
    | Param.two _ _ :: _ =>
      let (r, rows') := run2 params db.rows
      (r, { db with rows := rows' })
    | _ =>
      let (r, rows') := run1 params db.rows
      (r, { db with rows := rows' })

/-- search: executes the canonical query against the engine. A closed
connection fails first; a query the engine's grammar rejects surfaces as an
operational error carrying the query; otherwise the matching rows come back
as `(rowid, content)` or, under highlight, `(rowid, highlighted, content)`
with the stored content selected unmodified as the last column. -/
def search (q : String) (opts : SearchOpts)
    (db : FullTextSearchDB) : Except DBError (List Row) × FullTextSearchDB :=
  if db.closed then (.error .storeClosed, db)
  else
    match engineParse q with
    | .error _ => (.error (.queryGrammarRejected q), db)
    | .ok ast =>
      let matched := db.rows.filter (fun rc => evalAst (words rc.2) ast)
      if opts.highlight then
        (.ok (matched.map (fun rc =>
          Row.highlighted rc.1
            (hl_render opts.hl_prefix opts.hl_suffix (queryWords ast) rc.2) rc.2)), db)
      else
        (.ok (matched.map (fun rc => Row.plain rc.1 rc.2)), db)

/-- The canonical phrase query: the text wrapped verbatim in double quotes,
with no escaping. -/
def phrase_query (p : String) : String := "\"" ++ p ++ "\""

/-- search_phrase: quotes the phrase and delegates to search. -/
def search_phrase (p : String) (opts : SearchOpts)
    (db : FullTextSearchDB) : Except DBError (List Row) × FullTextSearchDB :=
  search (phrase_query p) opts db

/-- search_prefix: appends the prefix-wildcard star and delegates to search. -/
def search_prefix (p : String) (opts : SearchOpts)
    (db : FullTextSearchDB) : Except DBError (List Row) × FullTextSearchDB :=
  search (p ++ "*") opts db

/-- The `terms` argument of search_and / search_or / search_near: either a
single string or a sequence of strings (Python's runtime isinstance check,
made a tagged union). -/
inductive TermArg where
| str (s : String)
| list (l : List String)
deriving DecidableEq, Repr

/-- The isinstance promotion: a single string becomes a one-element list. -/
def promote : TermArg → List String
| .str s => [s]
| .list l => l

/-- Python's str.join: the empty list yields the empty string, a singleton
yields its element. -/
def joinSep (sep : String) : List String → String
| [] => ""
| [x] => x
| x :: xs => x ++ sep ++ joinSep sep xs

/-- search_and: joins the (promoted) terms with " AND " and delegates. -/
def search_and (terms : TermArg) (opts : SearchOpts)
    (db : FullTextSearchDB) : Except DBError (List Row) × FullTextSearchDB :=
  search (joinSep " AND " (promote terms)) opts db

/-- search_or: joins the (promoted) terms with " OR " and delegates. -/
def search_or (terms : TermArg) (opts : SearchOpts)
    (db : FullTextSearchDB) : Except DBError (List Row) × FullTextSearchDB :=
  search (joinSep " OR " (promote terms)) opts db

/-- search_not: "include NOT exclude", both single terms. -/
def search_not (inc exc : String) (opts : SearchOpts)
    (db : FullTextSearchDB) : Except DBError (List Row) × FullTextSearchDB :=
  search (inc ++ " NOT " ++ exc) opts db

/-- search_near: "NEAR(t1 t2 ..., max_distance)" over the promoted terms. -/
def search_near (terms : TermArg) (max_distance : Nat) (opts : SearchOpts)
    (db : FullTextSearchDB) : Except DBError (List Row) × FullTextSearchDB :=
  search ("NEAR(" ++ joinSep " " (promote terms) ++ ", " ++ Nat.repr max_distance ++ ")") opts db

/-- close: closes the underlying connection. Further operations on the
store fail; the counter records each invocation. -/
def close (db : FullTextSearchDB) : FullTextSearchDB :=
  { db with closed := true, closeCount := db.closeCount + 1 }

/-- The `__enter__` method returns the store itself. -/
def db_enter (db : FullTextSearchDB) : FullTextSearchDB := db

/-- The `with` block, per Python's with-statement semantics: `__enter__`
provides the store to the body; on exit from the body — normal value or
raised exception, both captured by the body's `Except` result — `__exit__`
runs exactly once and calls close(); returning None, it lets an exception
propagate. -/
def with_db {ε α : Type} (body : FullTextSearchDB → Except ε α × FullTextSearchDB)
    (db : FullTextSearchDB) : Except ε α × FullTextSearchDB :=
  let s := db_enter db
  let (r, s1) := body s
  (r, close s1)

/-- The constructor: an empty in-memory store, bulk-seeded when a non-empty
(truthy) initial iterable is given; a seeding failure propagates. -/
def mk_db (documents : Option (List (Option Int × String))) :
    Except DBError FullTextSearchDB :=
  let empty : FullTextSearchDB := ⟨[], false, 0⟩
  match documents with
  | none => .ok empty
  | some [] => .ok empty
  | some (d :: ds) =>
    match add_documents (d :: ds) empty with
    | (.ok _, db) => .ok db
    | (.error e, _) => .error e

/-- The row a two-element parameter tuple inserts (unused for one-element
tuples, which never reach the two-placeholder INSERT successfully). -/
def ptRow : Param → Int × String
| .two i c => (i, c)
| .one c => (0, c)

/-- The content carried by a parameter tuple. -/
def pContent : Param → String
| .two _ c => c
| .one c => c

/-- Is the parameter tuple a two-element `(doc_id, content)` tuple? -/
def isTwo : Param → Bool
| .two _ _ => true
| .one _ => false

/-- Is the parameter tuple a one-element `(content,)` tuple? -/
def isOne : Param → Bool
| .two _ _ => false
| .one _ => true

/-- The explicit rowid a parameter tuple binds, if any. -/
def twoId : Param → Option Int
| .two i _ => some i
| .one _ => none

/-- The empty query tokenizes to no tokens and the parser rejects it: the
engine refuses the empty canonical query. -/
theorem engineParse_empty : engineParse "" = .error () := rfl

/-- Any query starting "NEAR(, " is rejected by the engine: the proximity
group has no phrase before the comma, whatever follows. -/
theorem engineParse_near_no_phrase (t : String) :
    engineParse ("NEAR(, " ++ t) = .error () := rfl

/-- A rowid outside a row list makes the duplicate test come out false. -/
theorem any_id_eq_false (rows : List (Int × String)) (i : Int)
    (h : i ∉ rows.map Prod.fst) :
    rows.any (fun p => p.1 == i) = false := by
  rw [Bool.eq_false_iff]
  intro hc
  rw [List.any_eq_true] at hc
  obtain ⟨p, hp, hpi⟩ := hc
  rw [beq_iff_eq] at hpi
  exact h (hpi ▸ List.mem_map_of_mem Prod.fst hp)

/-- A batch of two-element tuples whose rowids are pairwise distinct and
absent from the store runs to completion against the two-placeholder
INSERT, appending exactly its rows. -/
theorem run2_fresh (ps : List Param) (rows : List (Int × String))
    (h : ∀ p ∈ ps, isTwo p = true)
    (hnd : (ps.filterMap twoId).Nodup)
    (hfr : ∀ i ∈ ps.filterMap twoId, i ∉ rows.map Prod.fst) :
    run2 ps rows = (.ok (), rows ++ ps.map ptRow) := by
  induction ps generalizing rows with
  | nil => simp [run2]
  | cons p ps ih =>
    cases p with
    | two i c =>
      simp only [List.filterMap_cons, twoId] at hnd hfr
      rw [List.nodup_cons] at hnd
      have hany : rows.any (fun p => p.1 == i) = false :=
        any_id_eq_false rows i (hfr i (List.mem_cons_self _ _))
      have hfr' : ∀ j ∈ ps.filterMap twoId, j ∉ (rows ++ [(i, c)]).map Prod.fst := by
        intro j hj hmem
        rw [List.map_append, List.mem_append] at hmem
        rcases hmem with hm | hm
        · exact hfr j (List.mem_cons_of_mem _ hj) hm
        · simp only [List.map_cons, List.map_nil, List.mem_singleton] at hm
          exact hnd.1 (hm ▸ hj)
      have := ih (rows ++ [(i, c)])
        (fun p hp => h p (List.mem_cons_of_mem _ hp)) hnd.2 hfr'
      simp only [run2, hany, Bool.false_eq_true, if_false, this, List.map_cons, ptRow]
      simp [List.append_assoc]
    | one c =>
      have := h _ (List.mem_cons_self _ _)
      simp [isOne, isTwo] at this

/-- run2 only ever appends to the visible rows. -/
theorem run2_mono (ps : List Param) (rows : List (Int × String)) :
    ∃ ext, (run2 ps rows).2 = rows ++ ext := by
  induction ps generalizing rows with
  | nil => exact ⟨[], by simp [run2]⟩
  | cons p ps ih =>
    cases p with
    | two i c =>
      cases hany : rows.any (fun p => p.1 == i) with
      | true => exact ⟨[], by simp [run2, hany]⟩
      | false =>
        obtain ⟨ext, he⟩ := ih (rows ++ [(i, c)])
        exact ⟨(i, c) :: ext, by simp [run2, hany, he]⟩
    | one c => exact ⟨[], by simp [run2]⟩

/-- When run2 succeeds, every parameter's content is among the rows. -/
theorem run2_ok_mem (ps : List Param) (rows : List (Int × String))
    (h : (run2 ps rows).1 = .ok ()) :
    ∀ p ∈ ps, ∃ i, (i, pContent p) ∈ (run2 ps rows).2 := by
  induction ps generalizing rows with
  | nil => intro p hp; cases hp
  | cons q ps ih =>
    cases q with
    | two i c =>
      cases hany : rows.any (fun p => p.1 == i) with
      | true => simp [run2, hany] at h
      | false =>
        intro p hp
        rcases List.mem_cons.mp hp with h1 | h2
        · subst h1
          obtain ⟨ext, he⟩ := run2_mono ps (rows ++ [(i, c)])
          refine ⟨i, ?_⟩
          simp only [run2, hany, Bool.false_eq_true, if_false, pContent, he]
          simp
        · simp only [run2, hany, Bool.false_eq_true, if_false] at h ⊢
          exact ih (rows ++ [(i, c)]) h p h2
    | one c => simp [run2] at h

/-- run1 only ever appends to the visible rows. -/
theorem run1_mono (ps : List Param) (rows : List (Int × String)) :
    ∃ ext, (run1 ps rows).2 = rows ++ ext := by
  induction ps generalizing rows with
  | nil => exact ⟨[], by simp [run1]⟩
  | cons p ps ih =>
    cases p with
    | one c =>
      obtain ⟨ext, he⟩ := ih (rows ++ [(autoId rows, c)])
      exact ⟨(autoId rows, c) :: ext, by simp [run1, he]⟩
    | two i c => exact ⟨[], by simp [run1]⟩

/-- A batch of one-element tuples runs to completion against the
one-placeholder INSERT. -/
theorem run1_all_one_ok (ps : List Param) (rows : List (Int × String))
    (h : ∀ p ∈ ps, isOne p = true) :
    (run1 ps rows).1 = .ok () := by
  induction ps generalizing rows with
  | nil => rfl
  | cons p ps ih =>
    cases p with
    | one c =>
      simpa [run1] using ih (rows ++ [(autoId rows, c)])
        (fun p hp => h p (List.mem_cons_of_mem _ hp))
    | two i c =>
      have := h _ (List.mem_cons_self _ _)
      simp [isOne] at this

/-- When run1 succeeds, every parameter's content is among the rows, under
some auto-assigned rowid. -/
theorem run1_ok_mem (ps : List Param) (rows : List (Int × String))
    (h : (run1 ps rows).1 = .ok ()) :
    ∀ p ∈ ps, ∃ i, (i, pContent p) ∈ (run1 ps rows).2 := by
  induction ps generalizing rows with
  | nil => intro p hp; cases hp
  | cons q ps ih =>
    cases q with
    | one c =>
      intro p hp
      rcases List.mem_cons.mp hp with h1 | h2
      · subst h1
        obtain ⟨ext, he⟩ := run1_mono ps (rows ++ [(autoId rows, c)])
        refine ⟨autoId rows, ?_⟩
        simp only [run1, pContent, he]
        simp
      · exact ih (rows ++ [(autoId rows, c)]) h p h2
    | two i c => simp [run1] at h

/-- A parameter tuple carries its document's content. -/
theorem pContent_toParam (p : Option Int × String) : pContent (toParam p) = p.2 := by
  obtain ⟨o, c⟩ := p
  cases o <;> rfl

/-- A parameter tuple carries its document's optional explicit rowid. -/
theorem twoId_toParam (p : Option Int × String) : twoId (toParam p) = p.1 := by
  obtain ⟨o, c⟩ := p
  cases o <;> rfl

/-- The running maximum of a fold over rowids never drops below its start. -/
theorem foldl_max_init_le (rs : List (Int × String)) (a : Int) :
    a ≤ rs.foldl (fun m p => max m p.1) a := by
  induction rs generalizing a with
  | nil => exact le_refl a
  | cons r rs ih => exact le_trans (le_max_left a r.1) (ih (max a r.1))

/-- The running maximum of a fold over rowids bounds every listed rowid. -/
theorem foldl_max_mem_le (rs : List (Int × String)) (a : Int) :
    ∀ p ∈ rs, p.1 ≤ rs.foldl (fun m p => max m p.1) a := by
  induction rs generalizing a with
  | nil => intro p hp; cases hp
  | cons r rs ih =>
    intro p hp
    rcases List.mem_cons.mp hp with h1 | h2
    · subst h1
      exact le_trans (le_max_right a p.1) (foldl_max_init_le rs (max a p.1))
    · exact ih (max a r.1) p h2

/-- The automatically assigned rowid is strictly above every rowid in use,
so it is never already present. -/
theorem autoId_not_mem (rows : List (Int × String)) :
    autoId rows ∉ rows.map Prod.fst := by
  intro hmem
  obtain ⟨p, hp, hpe⟩ := List.mem_map.mp hmem
  cases rows with
  | nil => cases hp
  | cons r rs =>
    have hle : p.1 ≤ rs.foldl (fun m q => max m q.1) r.1 := by
      rcases List.mem_cons.mp hp with h1 | h2
      · subst h1
        exact foldl_max_init_le rs p.1
      · exact foldl_max_mem_le rs r.1 p h2
    simp only [autoId] at hpe
    omega

/-- When add_documents reports success, every document of the batch is in
the store's visible rows (the set every search draws its results from). -/
theorem add_documents_ok_mem (db : FullTextSearchDB)
    (docs : List (Option Int × String))
    (h : (add_documents docs db).1 = .ok ()) :
    ∀ p ∈ docs, ∃ i, (i, p.2) ∈ (add_documents docs db).2.rows := by
  intro p hp
  cases hc : db.closed with
  | true => simp [add_documents, hc] at h
  | false =>
    have hm : toParam p ∈ docs.map toParam := List.mem_map_of_mem _ hp
    cases hd : docs.map toParam with
    | nil => simp [hd] at hm
    | cons q qs =>
      cases q with
      | two i c =>
        simp only [add_documents, hc, Bool.false_eq_true, if_false, hd] at h ⊢
        obtain ⟨i', hmem⟩ := run2_ok_mem _ db.rows h (toParam p) (hd ▸ hm)
        exact ⟨i', by simpa [pContent_toParam] using hmem⟩
      | one c =>
        simp only [add_documents, hc, Bool.false_eq_true, if_false, hd] at h ⊢
        obtain ⟨i', hmem⟩ := run1_ok_mem _ db.rows h (toParam p) (hd ▸ hm)
        exact ⟨i', by simpa [pContent_toParam] using hmem⟩

/-- C1: inserting under an identifier already present in the store is
rejected — the engine's duplicate-rowid constraint failure surfaces as the
integrity error (the reject policy of the claim) and nothing is stored; and
whenever the store's identifiers are unique, they remain unique after every
add_document, whether the id is explicit or auto-assigned. -/
theorem c1_duplicate_id_rejected (db : FullTextSearchDB) (content : String)
    (doc_id : Option Int) :
    (∀ i, doc_id = some i → i ∈ db.rows.map Prod.fst → db.closed = false →
      add_document content doc_id db = (.error .integrityError, db)) ∧
    ((db.rows.map Prod.fst).Nodup →
      ((add_document content doc_id db).2.rows.map Prod.fst).Nodup) := by
  constructor
  · intro i hd hmem hcl
    subst hd
    have hany : db.rows.any (fun p => p.1 == i) = true := by
      obtain ⟨p, hp, hpe⟩ := List.mem_map.mp hmem
      rw [List.any_eq_true]
      exact ⟨p, hp, by rw [beq_iff_eq]; exact hpe⟩
    simp [add_document, hcl, hany]
  · intro hnd
    cases hcl : db.closed with
    | true => simpa [add_document, hcl] using hnd
    | false =>
      cases doc_id with
      | some i =>
        cases hany : db.rows.any (fun p => p.1 == i) with
        | true => simpa [add_document, hcl, hany] using hnd
        | false =>
          have hni : i ∉ db.rows.map Prod.fst := by
            intro hm
            obtain ⟨p, hp, hpe⟩ := List.mem_map.mp hm
            have ht : db.rows.any (fun p => p.1 == i) = true :=
              List.any_eq_true.mpr ⟨p, hp, by rw [beq_iff_eq]; exact hpe⟩
            rw [hany] at ht
            simp at ht
          simp only [add_document, hcl, Bool.false_eq_true, if_false, hany,
            List.map_append, List.map_cons, List.map_nil]
          rw [List.nodup_append]
          exact ⟨hnd, by simp, fun a ha hb => hni ((List.mem_singleton.mp hb) ▸ ha)⟩
      | none =>
        simp only [add_document, hcl, Bool.false_eq_true, if_false,
          List.map_append, List.map_cons, List.map_nil]
        rw [List.nodup_append]
        exact ⟨hnd, by simp,
          fun a ha hb => autoId_not_mem db.rows ((List.mem_singleton.mp hb) ▸ ha)⟩

/-- C1 witness: on a store already holding id 101, reinserting under 101
is rejected by the integrity error with the store unchanged, and id
uniqueness is preserved. -/
theorem c1_duplicate_id_rejected_witness :
    add_document "beta" (some 101) ⟨[(101, "alpha")], false, 0⟩
      = (.error .integrityError, ⟨[(101, "alpha")], false, 0⟩) ∧
    ((add_document "beta" (some 101)
      ⟨[(101, "alpha")], false, 0⟩).2.rows.map Prod.fst).Nodup := by
  have h := c1_duplicate_id_rejected ⟨[(101, "alpha")], false, 0⟩ "beta" (some 101)
  exact ⟨h.1 101 rfl (by simp) rfl, h.2 (by simp)⟩

/-- C2 (amended): insert_many is not atomic. When it succeeds every
document of the batch is visible to subsequent searches; but when it fails
partway — as on a batch mixing explicit-id and auto-id entries — the
documents inserted before the failure remain visible: the mixed batch
[(5, "alpha"), (None, "beta")] fails with a binding error yet a subsequent
search for "alpha" returns the row. -/
theorem c2_insert_many_success_visible_failure_partial :
    (∀ (db : FullTextSearchDB) (docs : List (Option Int × String)),
      (add_documents docs db).1 = .ok () →
      ∀ p ∈ docs, ∃ i, (i, p.2) ∈ (add_documents docs db).2.rows) ∧
    (add_documents [(some 5, "alpha"), (none, "beta")] ⟨[], false, 0⟩).1
      = .error .bindingMismatch ∧
    (search "alpha" ⟨false, "<b>", "</b>"⟩
      (add_documents [(some 5, "alpha"), (none, "beta")] ⟨[], false, 0⟩).2).1
      = .ok [Row.plain 5 "alpha"] :=
  ⟨add_documents_ok_mem, rfl, rfl⟩

/-- C2 witness: the success direction applied to the concrete one-element
batch [(9, "gamma")] on a fresh store. -/
theorem c2_insert_many_success_visible_failure_partial_witness :
    ∃ i, (i, "gamma") ∈ (add_documents [(some 9, "gamma")] ⟨[], false, 0⟩).2.rows :=
  c2_insert_many_success_visible_failure_partial.1 ⟨[], false, 0⟩
    [(some 9, "gamma")] rfl (some 9, "gamma") (List.mem_singleton.mpr rfl)

/-- C2 counterexample to the claim as stated: the batch
[(5, "alpha"), (None, "beta")] fails partway with a binding error, yet the
batch document "alpha" is visible to a subsequent search — so it is false
that on failure no document of the batch is visible. -/
theorem c2_atomicity_counterexample :
    (add_documents [(some 5, "alpha"), (none, "beta")] ⟨[], false, 0⟩).1
      = .error .bindingMismatch ∧
    (add_documents [(some 5, "alpha"), (none, "beta")] ⟨[], false, 0⟩).2.rows
      = [(5, "alpha")] ∧
    (search "alpha" ⟨false, "<b>", "</b>"⟩
      (add_documents [(some 5, "alpha"), (none, "beta")] ⟨[], false, 0⟩).2).1
      = .ok [Row.plain 5 "alpha"] :=
  ⟨rfl, rfl, rfl⟩

/-- C3 (amended): a homogeneous batch is inserted in full only under the
engine's identifier constraints: a batch whose every entry carries an
explicit id, with those ids pairwise distinct and none already in the
store, is inserted in full under the given ids; a batch whose every id is
None is inserted in full under fresh auto-assigned ids; a batch mixing the
two kinds fails with a parameter-binding error, and a duplicate explicit id
fails with the integrity error, leaving the batch incompletely inserted. -/
theorem c3_homogeneous_batches_insert_all (db : FullTextSearchDB)
    (docs : List (Option Int × String)) (h : db.closed = false) :
    ((∀ p ∈ docs, p.1.isSome = true) →
     (docs.filterMap Prod.fst).Nodup →
     (∀ i ∈ docs.filterMap Prod.fst, i ∉ db.rows.map Prod.fst) →
      (add_documents docs db).1 = .ok () ∧
      ∀ p ∈ docs, ∀ i, p.1 = some i → (i, p.2) ∈ (add_documents docs db).2.rows) ∧
    ((∀ p ∈ docs, p.1 = none) →
      (add_documents docs db).1 = .ok () ∧
      ∀ p ∈ docs, ∃ i, (i, p.2) ∈ (add_documents docs db).2.rows) ∧
    add_documents [(some 7, "cat"), (some 7, "dog")] ⟨[], false, 0⟩
      = (.error .integrityError, ⟨[(7, "cat")], false, 0⟩) := by
  refine ⟨?_, ?_, rfl⟩
  · intro hall hnd hfr
    have htwo : ∀ q ∈ docs.map toParam, isTwo q = true := by
      intro q hq
      obtain ⟨pp, hpp, rfl⟩ := List.mem_map.mp hq
      obtain ⟨o, c⟩ := pp
      cases o with
      | some i => rfl
      | none => simpa using hall _ hpp
    have hmap : (docs.map toParam).filterMap twoId = docs.filterMap Prod.fst := by
      rw [List.filterMap_map]
      have hfun : (twoId ∘ toParam) = (Prod.fst : Option Int × String → Option Int) :=
        funext twoId_toParam
      rw [hfun]
    cases docs with
    | nil =>
      refine ⟨by simp [add_documents, h, run1], ?_⟩
      intro p hp; cases hp
    | cons d ds =>
      obtain ⟨o, c⟩ := d
      obtain ⟨i0, rfl⟩ := Option.isSome_iff_exists.mp (hall _ (List.mem_cons_self _ _))
      have hrun := run2_fresh (((some i0, c) :: ds).map toParam) db.rows htwo
        (hmap ▸ hnd) (by rw [hmap]; exact hfr)
      simp only [List.map_cons, toParam] at hrun
      constructor
      · simp [add_documents, h, toParam, hrun]
      · intro p hp i hi
        have hm : toParam p ∈ ((some i0, c) :: ds).map toParam :=
          List.mem_map_of_mem _ hp
        have hpt : ptRow (toParam p) = (i, p.2) := by
          obtain ⟨o', c'⟩ := p
          cases o' with
          | some j => cases hi; rfl
          | none => cases hi
        have hmem2 : (i, p.2) ∈ (((some i0, c) :: ds).map toParam).map ptRow := by
          rw [← hpt]
          exact List.mem_map_of_mem _ hm
        simp only [List.map_cons, toParam, ptRow] at hmem2
        simp only [add_documents, h, Bool.false_eq_true, if_false, List.map_cons,
          toParam, hrun, ptRow]
        exact List.mem_append_right _ hmem2
  · intro hall
    have hone : ∀ q ∈ docs.map toParam, isOne q = true := by
      intro q hq
      obtain ⟨pp, hpp, rfl⟩ := List.mem_map.mp hq
      obtain ⟨o, c⟩ := pp
      have := hall _ hpp
      simp only at this
      rw [this]
      rfl
    cases docs with
    | nil =>
      refine ⟨by simp [add_documents, h, run1], ?_⟩
      intro p hp; cases hp
    | cons d ds =>
      obtain ⟨o, c⟩ := d
      have ho : o = none := hall _ (List.mem_cons_self _ _)
      subst ho
      have hok := run1_all_one_ok (((none, c) :: ds).map toParam) db.rows hone
      constructor
      · simpa [add_documents, h, toParam] using hok
      · intro p hp
        have hm : toParam p ∈ ((none, c) :: ds).map toParam :=
          List.mem_map_of_mem _ hp
        obtain ⟨i', hmem⟩ :=
          run1_ok_mem (((none, c) :: ds).map toParam) db.rows hok (toParam p) hm
        rw [pContent_toParam] at hmem
        refine ⟨i', ?_⟩
        simp only [add_documents, h, Bool.false_eq_true, if_false, List.map_cons,
          toParam]
        simpa [toParam] using hmem

/-- C3 witness: a homogeneous explicit-id batch and a homogeneous auto-id
batch each insert all their documents on a fresh store. -/
theorem c3_homogeneous_batches_insert_all_witness :
    (add_documents [(some 7, "cat"), (some 8, "dog")] ⟨[], false, 0⟩).1 = .ok () ∧
    (7, "cat") ∈ (add_documents [(some 7, "cat"), (some 8, "dog")] ⟨[], false, 0⟩).2.rows ∧
    (add_documents [(none, "emu")] ⟨[], false, 0⟩).1 = .ok () ∧
    ∃ i, (i, "emu") ∈ (add_documents [(none, "emu")] ⟨[], false, 0⟩).2.rows := by
  have h1 := (c3_homogeneous_batches_insert_all ⟨[], false, 0⟩
    [(some 7, "cat"), (some 8, "dog")] rfl).1 (by decide) (by decide) (by decide)
  have h2 := (c3_homogeneous_batches_insert_all ⟨[], false, 0⟩
    [(none, "emu")] rfl).2.1 (by decide)
  exact ⟨h1.1, h1.2 (some 7, "cat") (by simp) 7 rfl, h2.1,
    h2.2 (none, "emu") (by simp)⟩

/-- C3 counterexample to the claim as stated: the mixed batch
[(7, "cat"), (None, "dog")] is not inserted in full — the call fails with a
binding error and "dog" is never stored. -/
theorem c3_mixed_batch_counterexample :
    (add_documents [(some 7, "cat"), (none, "dog")] ⟨[], false, 0⟩).1
      = .error .bindingMismatch ∧
    ((add_documents [(some 7, "cat"), (none, "dog")] ⟨[], false, 0⟩).2.rows.filter
      (fun p => p.2 == "dog")).length = 0 :=
  ⟨rfl, rfl⟩

/-- C4 (amended): on an empty term sequence, search_and and search_or build
the empty canonical query and search_near builds "NEAR(, d)"; each is
passed to the index engine and fails with the engine's query-grammar
rejection carrying that query — there is no pre-engine invalid-query-
construction check. -/
theorem c4_empty_terms_engine_rejects (db : FullTextSearchDB) (opts : SearchOpts)
    (h : db.closed = false) :
    search_and (.list []) opts db = (.error (.queryGrammarRejected ""), db) ∧
    search_or (.list []) opts db = (.error (.queryGrammarRejected ""), db) ∧
    ∀ d : Nat, search_near (.list []) d opts db
      = (.error (.queryGrammarRejected ("NEAR(, " ++ Nat.repr d ++ ")")), db) := by
  refine ⟨?_, ?_, ?_⟩
  · show search "" opts db = _
    simp [search, h, engineParse_empty]
  · show search "" opts db = _
    simp [search, h, engineParse_empty]
  · intro d
    show search ("NEAR(, " ++ (Nat.repr d ++ ")")) opts db = _
    simp only [search, h, Bool.false_eq_true, if_false, engineParse_near_no_phrase]
    rfl

/-- C4 witness: the amended behavior at a concrete open store, with the
default distance 10. -/
theorem c4_empty_terms_engine_rejects_witness :
    search_and (.list []) ⟨false, "<b>", "</b>"⟩ ⟨[(1, "hello")], false, 0⟩
      = (.error (.queryGrammarRejected ""), ⟨[(1, "hello")], false, 0⟩) ∧
    search_near (.list []) 10 ⟨false, "<b>", "</b>"⟩ ⟨[(1, "hello")], false, 0⟩
      = (.error (.queryGrammarRejected "NEAR(, 10)"), ⟨[(1, "hello")], false, 0⟩) := by
  have h := c4_empty_terms_engine_rejects ⟨[(1, "hello")], false, 0⟩
    ⟨false, "<b>", "</b>"⟩ rfl
  exact ⟨h.1, h.2.2 10⟩

/-- C4 counterexample to the claim as stated: on the empty term sequence
the helpers do execute a query against the index engine — the failure is
the engine's grammar rejection of the degenerate query it received ("" and
"NEAR(, 10)"), not a pre-execution invalid-query-construction error. -/
theorem c4_empty_terms_counterexample :
    (search_and (.list []) ⟨false, "<b>", "</b>"⟩ ⟨[(2, "w")], false, 0⟩).1
      = .error (.queryGrammarRejected "") ∧
    (search_or (.list []) ⟨false, "<b>", "</b>"⟩ ⟨[(2, "w")], false, 0⟩).1
      = .error (.queryGrammarRejected "") ∧
    (search_near (.list []) 10 ⟨false, "<b>", "</b>"⟩ ⟨[(2, "w")], false, 0⟩).1
      = .error (.queryGrammarRejected "NEAR(, 10)") ∧
    engineParse "" = .error () ∧
    engineParse "NEAR(, 10)" = .error () :=
  ⟨rfl, rfl, rfl, rfl, rfl⟩

/-- C5: after close(), every operation of the store — both inserts, raw
search and every search helper — fails with the store-closed error and
leaves the store unchanged and closed; none succeeds. -/
theorem c5_operations_after_close_fail (db : FullTextSearchDB)
    (content : String) (doc_id : Option Int) (docs : List (Option Int × String))
    (q p inc exc : String) (terms : TermArg) (d : Nat) (opts : SearchOpts) :
    add_document content doc_id (close db) = (.error .storeClosed, close db) ∧
    add_documents docs (close db) = (.error .storeClosed, close db) ∧
    search q opts (close db) = (.error .storeClosed, close db) ∧
    search_phrase p opts (close db) = (.error .storeClosed, close db) ∧
    search_prefix p opts (close db) = (.error .storeClosed, close db) ∧
    search_and terms opts (close db) = (.error .storeClosed, close db) ∧
    search_or terms opts (close db) = (.error .storeClosed, close db) ∧
    search_not inc exc opts (close db) = (.error .storeClosed, close db) ∧
    search_near terms d opts (close db) = (.error .storeClosed, close db) ∧
    (close db).closed = true :=
  ⟨rfl, rfl, rfl, rfl, rfl, rfl, rfl, rfl, rfl, rfl⟩

/-- C6: for any body — returning a value or raising (the body's Except
outcome covers both exit paths) — the use-block built from `__enter__` and
`__exit__` hands the body's outcome through unchanged, leaves the store
produced by the body closed, and invokes close() exactly once on exit. -/
theorem c6_with_block_closes_exactly_once {ε α : Type}
    (body : FullTextSearchDB → Except ε α × FullTextSearchDB)
    (db : FullTextSearchDB) :
    (with_db body db).1 = (body db).1 ∧
    (with_db body db).2 = close (body db).2 ∧
    (with_db body db).2.closed = true ∧
    (with_db body db).2.closeCount = (body db).2.closeCount + 1 :=
  ⟨rfl, rfl, rfl, rfl⟩

/-- C7: search_phrase executes exactly the canonical query made of the
text wrapped verbatim in double quotes — character for character, with no
escaping — and on a text containing the engine's quote character unescaped
the executed query is ill-formed and rejected by the engine. -/
theorem c7_phrase_wraps_verbatim_no_escaping :
    (∀ p : String, (phrase_query p).data = '"' :: (p.data ++ ['"'])) ∧
    (∀ (db : FullTextSearchDB) (p : String) (opts : SearchOpts),
      search_phrase p opts db = search (phrase_query p) opts db) ∧
    (search_phrase "say \"hi" ⟨false, "<b>", "</b>"⟩ ⟨[(1, "say hi")], false, 0⟩).1
      = .error (.queryGrammarRejected "\"say \"hi\"") :=
  ⟨fun _ => rfl, fun _ _ _ => rfl, rfl⟩

/-- C8: the shape of every returned row is selected solely by the highlight
flag — all rows are (id, content) pairs when it is off, and all rows are
(id, highlighted, content) triples whose last field is a stored content of
the store when it is on; the shapes are never mixed in one result. -/
theorem c8_row_shape_by_highlight_flag (db : FullTextSearchDB) (q : String)
    (opts : SearchOpts) (rs : List Row)
    (h : (search q opts db).1 = .ok rs) :
    (opts.highlight = false → ∀ r ∈ rs, ∃ i c, r = Row.plain i c) ∧
    (opts.highlight = true →
      ∀ r ∈ rs, ∃ i hl c, r = Row.highlighted i hl c ∧ (i, c) ∈ db.rows) := by
  cases hc : db.closed with
  | true => simp [search, hc] at h
  | false =>
    cases hp : engineParse q with
    | error e => simp [search, hc, hp] at h
    | ok ast =>
      cases ho : opts.highlight with
      | false =>
        simp only [search, hc, Bool.false_eq_true, if_false, hp, ho,
          Except.ok.injEq] at h
        constructor
        · intro _ r hr
          rw [← h] at hr
          obtain ⟨rc, _, heq⟩ := List.mem_map.mp hr
          exact ⟨rc.1, rc.2, heq.symm⟩
        · intro hx
          simp at hx
      | true =>
        simp only [search, hc, Bool.false_eq_true, if_false, hp, ho, if_true,
          Except.ok.injEq] at h
        constructor
        · intro hx
          simp at hx
        · intro _ r hr
          rw [← h] at hr
          obtain ⟨rc, hrc, heq⟩ := List.mem_map.mp hr
          refine ⟨rc.1, hl_render opts.hl_prefix opts.hl_suffix (queryWords ast) rc.2,
            rc.2, heq.symm, ?_⟩
          simpa using List.mem_of_mem_filter hrc

/-- C8 witness: a concrete highlighted search whose single row is the
(id, highlighted, content) triple with the stored content as last field. -/
theorem c8_row_shape_by_highlight_flag_witness :
    ∃ i hl c, Row.highlighted 1 "<<hello>> world" "hello world"
      = Row.highlighted i hl c ∧ (i, c) ∈ [((1 : Int), "hello world")] :=
  (c8_row_shape_by_highlight_flag ⟨[(1, "hello world")], false, 0⟩ "hello"
    ⟨true, "<<", ">>"⟩ [Row.highlighted 1 "<<hello>> world" "hello world"] rfl).2 rfl
    (Row.highlighted 1 "<<hello>> world" "hello world") (List.mem_singleton.mpr rfl)

/-- C9: a single string passed as the terms argument of search_and,
search_or or search_near behaves exactly as the one-element sequence
holding it, for every store, every option set and every distance. -/
theorem c9_single_string_promotes_to_singleton (db : FullTextSearchDB)
    (s : String) (opts : SearchOpts) (d : Nat) :
    search_and (.str s) opts db = search_and (.list [s]) opts db ∧
    search_or (.str s) opts db = search_or (.list [s]) opts db ∧
    search_near (.str s) d opts db = search_near (.list [s]) d opts db :=
  ⟨rfl, rfl, rfl⟩

/-- C10: an empty batch succeeds, raises nothing, and is a no-op: the store
is unchanged and every search returns exactly what it returned before. -/
theorem c10_empty_batch_is_noop (db : FullTextSearchDB) (h : db.closed = false) :
    add_documents [] db = (.ok (), db) ∧
    ∀ (q : String) (opts : SearchOpts),
      search q opts (add_documents [] db).2 = search q opts db := by
  have h1 : add_documents [] db = (.ok (), db) := by
    obtain ⟨rows, closed, cnt⟩ := db
    cases closed with
    | false => rfl
    | true => simp at h
  exact ⟨h1, fun q opts => by rw [h1]⟩

/-- C10 witness: the empty batch on a concrete open store with one row. -/
theorem c10_empty_batch_is_noop_witness :
    add_documents [] ⟨[(3, "x")], false, 0⟩ = (.ok (), ⟨[(3, "x")], false, 0⟩) ∧
    search "x" ⟨false, "<b>", "</b>"⟩ (add_documents [] ⟨[(3, "x")], false, 0⟩).2
      = search "x" ⟨false, "<b>", "</b>"⟩ ⟨[(3, "x")], false, 0⟩ := by
  have h := c10_empty_batch_is_noop ⟨[(3, "x")], false, 0⟩ rfl
  exact ⟨h.1, h.2 "x" ⟨false, "<b>", "</b>"⟩⟩

end PyFTS5
